import Mathlib

/-!
Verification of the Google Cloud SQL log ingestion subsystem
(`input/system/google_cloudsql/logs.go`): the Pub/Sub provider adapter,
the subscription deduplication in `SetupLogSubscriber`, and the stream
transformer `setupLogTransformer`.

The Go code is shallowly embedded: channels become lists of the values
that cross them, goroutine loops become recursive functions over the
finite list of events they consume, and the external collaborators
(`logs.ParseLogLineWithPrefix`, `time.Parse`, Pub/Sub client creation)
become function parameters.
-/

namespace GoogleCloudSQL

/-- Model of Go `time.Time`, abstracted to its ordering and its
distinguished zero ("unknown") value: `val` is nanoseconds since an
epoch, `val = 0` is the zero value. -/
structure GoTime where
  val : Int
deriving DecidableEq, Repr

/-- The Go zero `time.Time`. -/
def GoTime.zero : GoTime := ⟨0⟩

/-- Go `t.IsZero()`. -/
def GoTime.isZero (t : GoTime) : Bool := decide (t.val = 0)

/-- Go `a.Before(b)`: strict comparison. -/
def GoTime.before (a b : GoTime) : Bool := decide (a.val < b.val)

/-- Go `t.Add(d)` for a duration of `d` nanoseconds. -/
def GoTime.add (t : GoTime) (d : Int) : GoTime := ⟨t.val + d⟩

/-- One minute in nanoseconds (Go `time.Minute`). -/
def minuteNs : Int := 60000000000

/-- The fields of `config.ServerConfig` read by this subsystem. -/
structure ServerConfig where
  sectionName : String
  identifier : String
  gcpPubsubSubscription : String
  gcpProjectID : String
  gcpCloudSQLInstanceID : String
deriving DecidableEq, Repr

/-- A `state.Server` as seen by this subsystem (only its config is read). -/
structure Server where
  config : ServerConfig
deriving DecidableEq, Repr

/-- `LogStreamItem`: the intermediate record an adapter places on the
`gcpLogStream` channel. -/
structure LogStreamItem where
  gcpProjectID : String
  gcpCloudSQLInstanceID : String
  occurredAt : GoTime
  content : String
deriving DecidableEq, Repr

/-- A `state.LogLine` as touched by this subsystem: the transformer only
assigns `OccurredAt`; everything else the line parser produced is kept
abstract in `rest`. -/
structure LogLine where
  occurredAt : GoTime
  rest : String
deriving DecidableEq, Repr

/-- `state.ParsedLogStreamItem`: a routed line on the output channel. -/
structure ParsedLogStreamItem where
  identifier : String
  logLine : LogLine
deriving DecidableEq, Repr

/-! ## String helpers (Go `strings` package) -/

/-- Number of occurrences of the slash character in a character list
(Go `strings.Count(s, "/")` for the one-character separator). -/
def countSlashL (l : List Char) : Nat := (l.filter (fun c => c == '/')).length

/-- `strings.Count(s, "/")` on a `String`. -/
def countSlash (s : String) : Nat := countSlashL s.toList

/-- Split off everything before the first slash: returns the slash-free
head and, if a slash was found, the remainder after it. -/
def breakSlash : List Char → List Char × Option (List Char)
  | [] => ([], none)
  | c :: cs =>
    if c == '/' then ([], some cs)
    else
      let r := breakSlash cs
      (c :: r.1, r.2)

/-- Go `strings.SplitN(s, "/", n)` for `n ≥ 0`: at most `n` pieces, the
last piece holding the unsplit remainder. -/
def splitSlashN : Nat → List Char → List (List Char)
  | 0, _ => []
  | 1, s => [s]
  | n + 2, s =>
    match breakSlash s with
    | (_, none) => [s]
    | (a, some cs) => a :: splitSlashN (n + 1) cs

/-- Go `strings.HasSuffix(s, suffix)`. -/
def goHasSuffix (s suffix : String) : Bool := suffix.toList.isSuffixOf s.toList

/-! ## Provider adapter (`setupPubSubSubscriber`) -/

/-- `googleLogResource` from the decoded Pub/Sub JSON payload; the
labels map is modelled as an association list. -/
structure GoogleLogResource where
  resourceType : String
  labels : List (String × String)
deriving DecidableEq, Repr

/-- `googleLogMessage`: the decoded Pub/Sub JSON payload. -/
structure GoogleLogMessage where
  insertId : String
  logName : String
  receiveTimestamp : String
  resource : GoogleLogResource
  severity : String
  textPayload : String
  timestamp : String
deriving DecidableEq, Repr

/-- Go map lookup `labels[key]` returning `(value, ok)`. -/
def lookupLabel (labels : List (String × String)) (key : String) : Option String :=
  (labels.find? (fun p => p.1 == key)).map (fun p => p.2)

/-- Go `t, _ := time.Parse(time.RFC3339Nano, s)`: the parse itself is the
external `timeParse` collaborator; on failure Go leaves `t` at the zero
value because the error is discarded. -/
def goTimeParse (timeParse : String → Option GoTime) (s : String) : GoTime :=
  (timeParse s).getD GoTime.zero

/-- The body of the Pub/Sub receive callback after JSON decoding
(`setupPubSubSubscriber`, the filters and the emission): `none` means
the message was dropped by a provider-side filter, `some item` means
`item` was sent on the `gcpLogStream` channel. -/
def processPubSubMessage (timeParse : String → Option GoTime) (msg : GoogleLogMessage) :
    Option LogStreamItem :=
  if msg.resource.resourceType ≠ "cloudsql_database" ∧
     msg.resource.resourceType ≠ "alloydb.googleapis.com/Instance" then none
  else if !(goHasSuffix msg.logName "postgres.log") then none
  else
    match lookupLabel msg.resource.labels "resource_container" with
    | none => none
    | some resourceContainer =>
      if countSlash resourceContainer ≠ 1 then none
      else
        let parts := splitSlashN 2 resourceContainer.toList
        match lookupLabel msg.resource.labels "cluster_id" with
        | none => none
        | some clusterID =>
          some { gcpProjectID := String.mk (parts.getD 1 []),
                 gcpCloudSQLInstanceID := clusterID,
                 occurredAt := goTimeParse timeParse msg.timestamp,
                 content := msg.textPayload }

/-- The subscription-identifier format check at the top of
`setupPubSubSubscriber`: `none` models the early error return (before
any Pub/Sub client is created); `some (projectID, subID)` models passing
the check with `idParts[1]` and `idParts[3]` extracted. -/
def checkSubscriptionFormat (s : String) : Option (String × String) :=
  if countSlash s ≠ 3 then none
  else
    let idParts := splitSlashN 4 s.toList
    some (String.mk (idParts.getD 1 []), String.mk (idParts.getD 3 []))

/-- Result of one `sub.Receive(...)` call: `none` for a nil error,
otherwise the Go error value. -/
inductive GoError
  | canceled
  | other (msg : String)
deriving DecidableEq, Repr

/-- Observable events of the adapter goroutine's receive loop. -/
inductive AdapterEvent
  | initLog
  | retryLog (msg : String)
  | sleepMinutes (n : Nat)
  | signalDone
deriving DecidableEq, Repr

/-- The adapter goroutine's `for` loop, run against a finite list of
outcomes of successive `sub.Receive` calls. Returns the event trace and
whether the loop exited (reaching `wg.Done()`, the `signalDone` event);
`false` means the trace ended with the loop still running (about to
issue the next receive call). -/
def receiveLoop : List (Option GoError) → List AdapterEvent × Bool
  | [] => ([], false)
  | result :: rest =>
    match result with
    | none => ([.initLog, .signalDone], true)
    | some .canceled => ([.initLog, .signalDone], true)
    | some (.other m) =>
      let r := receiveLoop rest
      (.initLog :: .retryLog m :: .sleepMinutes 1 :: r.1, r.2)

/-! ## Coordinator (`SetupLogSubscriber`) -/

/-- Instrumented state of the coordinator loop: `handlers` is the
`gcpPubSubHandlers` deduplication map (as the list of recorded keys),
`attempts` records the subscription of every `setupPubSubSubscriber`
call made, `started` the subscription of every call that succeeded
(i.e. every adapter goroutine actually started), and `warnings` the
warning messages logged in normal mode. -/
structure SetupState where
  handlers : List String
  attempts : List String
  started : List String
  warnings : List String
deriving DecidableEq, Repr

/-- The coordinator's initial state: empty deduplication map. -/
def SetupState.empty : SetupState := ⟨[], [], [], []⟩

/-- The `for _, server := range servers` loop of `SetupLogSubscriber`.
`testRun` is `globalCollectionOpts.TestRun`; `setup` gives the outcome
of `setupPubSubSubscriber` for a server (`none` = success, `some e` =
the error). `.error e` models `return err` in test-run mode. -/
def setupLoop (testRun : Bool) (setup : Server → Option String) :
    List Server → SetupState → Except String SetupState
  | [], st => .ok st
  | server :: rest, st =>
    if server.config.gcpPubsubSubscription = "" then
      setupLoop testRun setup rest st
    else if server.config.gcpPubsubSubscription ∈ st.handlers then
      setupLoop testRun setup rest st
    else
      match setup server with
      | some e =>
        if testRun then .error e
        else
          setupLoop testRun setup rest
            { st with
              attempts := st.attempts ++ [server.config.gcpPubsubSubscription],
              warnings := st.warnings ++ [e] }
      | none =>
        setupLoop testRun setup rest
          { st with
            handlers := st.handlers ++ [server.config.gcpPubsubSubscription],
            attempts := st.attempts ++ [server.config.gcpPubsubSubscription],
            started := st.started ++ [server.config.gcpPubsubSubscription] }

/-- `SetupLogSubscriber`'s subscription-setup phase, from the empty
deduplication map. -/
def setupLogSubscriber (testRun : Bool) (setup : Server → Option String)
    (servers : List Server) : Except String SetupState :=
  setupLoop testRun setup servers SetupState.empty

/-- A setup outcome for concrete runs: every setup call succeeds. -/
def setupAlwaysSucceeds : Server → Option String := fun _ => none

/-- A setup outcome for concrete runs: setup fails with error `e` for
servers in config section `sec` and succeeds for all others. -/
def setupFailsOn (sec e : String) : Server → Option String :=
  fun sv => if sv.config.sectionName = sec then some e else none

/-! ## Stream transformer (`setupLogTransformer`) -/

/-- The routing `for _, server := range servers` loop at the end of the
transformer body: one output item per server whose (project, instance)
pair equals the record's. -/
def routeRecord (item : LogStreamItem) (logLine : LogLine) :
    List Server → List ParsedLogStreamItem
  | [] => []
  | server :: rest =>
    if item.gcpProjectID == server.config.gcpProjectID &&
       item.gcpCloudSQLInstanceID == server.config.gcpCloudSQLInstanceID then
      { identifier := server.config.identifier, logLine := logLine } ::
        routeRecord item logLine rest
    else
      routeRecord item logLine rest

/-- The Boolean match condition of the routing loop, for stating
theorems about which servers receive a record. -/
def matchesServer (item : LogStreamItem) (server : Server) : Bool :=
  item.gcpProjectID == server.config.gcpProjectID &&
  item.gcpCloudSQLInstanceID == server.config.gcpCloudSQLInstanceID

/-- What one iteration of the transformer loop produces. -/
structure TransformResult where
  emitted : List ParsedLogStreamItem
  errorLogs : List String
deriving DecidableEq, Repr

/-- The transformer loop body for one received record. `parseLogLine` is
the external collaborator `logs.ParseLogLineWithPrefix` (with `none`
modelling `ok = false`); `linesNewerThan` is the cutoff computed at
transformer start. `emitted` are the items sent on the output channel
and `errorLogs` the raw contents logged by `PrintError`. -/
def processRecord (parseLogLine : String → String → Option LogLine)
    (linesNewerThan : GoTime) (servers : List Server)
    (item : LogStreamItem) : TransformResult :=
  match parseLogLine "" (item.content ++ "\n") with
  | none => { emitted := [], errorLogs := [item.content] }
  | some parsed =>
    let logLine := { parsed with occurredAt := item.occurredAt }
    if !logLine.occurredAt.isZero && logLine.occurredAt.before linesNewerThan then
      { emitted := [], errorLogs := [] }
    else
      { emitted := routeRecord item logLine servers, errorLogs := [] }

/-- The transformer loop over a finite list of records received from the
intermediate channel. -/
def processStream (parseLogLine : String → String → Option LogLine)
    (linesNewerThan : GoTime) (servers : List Server) :
    List LogStreamItem → TransformResult
  | [] => { emitted := [], errorLogs := [] }
  | item :: rest =>
    let r := processRecord parseLogLine linesNewerThan servers item
    let rs := processStream parseLogLine linesNewerThan servers rest
    { emitted := r.emitted ++ rs.emitted, errorLogs := r.errorLogs ++ rs.errorLogs }

/-- The freshness cutoff `linesNewerThan := time.Now().Add(-1 * time.Minute)`
computed once when the transformer goroutine starts, `now` being the
start time. -/
def transformerCutoff (now : GoTime) : GoTime := now.add (-1 * minuteNs)

/-- `setupLogTransformer`'s goroutine over a finite input stream, with
the cutoff computed once at start. -/
def runLogTransformer (parseLogLine : String → String → Option LogLine)
    (now : GoTime) (servers : List Server) (items : List LogStreamItem) :
    TransformResult :=
  processStream parseLogLine (transformerCutoff now) servers items

/-- Verification-side invariant of the coordinator state: no adapter was
started twice for the same key, and the deduplication map holds exactly
the keys whose adapters were started. -/
def handlersMatchStarted (st : SetupState) : Prop :=
  st.started.Nodup ∧ ∀ k, k ∈ st.handlers ↔ k ∈ st.started

/-! ## Helper lemmas -/

theorem toList_append (a b : String) : (a ++ b).toList = a.toList ++ b.toList := by
  simp [String.toList]

theorem countSlashL_append (a b : List Char) :
    countSlashL (a ++ b) = countSlashL a + countSlashL b := by
  simp [countSlashL, List.filter_append]

theorem countSlashL_slash_cons (b : List Char) :
    countSlashL ('/' :: b) = countSlashL b + 1 := by
  simp [countSlashL, List.filter_cons]

theorem countSlashL_cons_eq_zero {c : Char} {cs : List Char}
    (h : countSlashL (c :: cs) = 0) : (c == '/') = false ∧ countSlashL cs = 0 := by
  simp only [countSlashL, List.filter_cons] at h
  by_cases hc : (c == '/') = true
  · rw [if_pos hc] at h
    simp at h
  · rw [if_neg hc] at h
    exact ⟨Bool.not_eq_true _ ▸ Bool.of_not_eq_true hc, h⟩

theorem breakSlash_append (a b : List Char) (h : countSlashL a = 0) :
    breakSlash (a ++ '/' :: b) = (a, some b) := by
  induction a with
  | nil => simp [breakSlash]
  | cons c cs ih =>
    obtain ⟨hc, hcs⟩ := countSlashL_cons_eq_zero h
    simp [breakSlash, hc, ih hcs]

theorem splitSlashN_cons_slash (n : Nat) (a b : List Char) (h : countSlashL a = 0) :
    splitSlashN (n + 2) (a ++ '/' :: b) = a :: splitSlashN (n + 1) b := by
  simp [splitSlashN, breakSlash_append a b h]

theorem splitSlashN_four (p0 p1 p2 p3 : List Char)
    (h0 : countSlashL p0 = 0) (h1 : countSlashL p1 = 0) (h2 : countSlashL p2 = 0) :
    splitSlashN 4 (p0 ++ '/' :: (p1 ++ '/' :: (p2 ++ '/' :: p3))) = [p0, p1, p2, p3] := by
  have e4 : (4 : Nat) = 2 + 2 := rfl
  have e3 : (2 + 1 : Nat) = 1 + 2 := rfl
  have e2 : (1 + 1 : Nat) = 0 + 2 := rfl
  rw [e4, splitSlashN_cons_slash 2 p0 _ h0, e3, splitSlashN_cons_slash 1 p1 _ h1,
    e2, splitSlashN_cons_slash 0 p2 _ h2]
  rfl

theorem toList_wellFormedPath (p q : String) :
    ("projects/" ++ p ++ "/subscriptions/" ++ q).toList =
      "projects".toList ++ '/' ::
        (p.toList ++ '/' :: ("subscriptions".toList ++ '/' :: q.toList)) := by
  have h1 : ("projects/" : String).toList = "projects".toList ++ ['/'] := by decide
  have h2 : ("/subscriptions/" : String).toList =
      '/' :: ("subscriptions".toList ++ ['/']) := by decide
  rw [toList_append, toList_append, toList_append, h1, h2]
  simp

theorem routeRecord_eq_filter_map (item : LogStreamItem) (logLine : LogLine)
    (servers : List Server) :
    routeRecord item logLine servers =
      (servers.filter (matchesServer item)).map
        (fun s => { identifier := s.config.identifier, logLine := logLine }) := by
  induction servers with
  | nil => rfl
  | cons server rest ih =>
    simp only [routeRecord, List.filter_cons, matchesServer]
    by_cases h : (item.gcpProjectID == server.config.gcpProjectID &&
        item.gcpCloudSQLInstanceID == server.config.gcpCloudSQLInstanceID) = true
    · simp [h, ih]
    · simp [h, ih]

theorem logLine_of_mem_routeRecord (item : LogStreamItem) (logLine : LogLine)
    (servers : List Server) (r : ParsedLogStreamItem)
    (h : r ∈ routeRecord item logLine servers) : r.logLine = logLine := by
  induction servers with
  | nil => simp [routeRecord] at h
  | cons server rest ih =>
    simp only [routeRecord] at h
    split at h
    · rcases List.mem_cons.mp h with h1 | h1
      · rw [h1]
      · exact ih h1
    · exact ih h

theorem processStream_append (parseLogLine : String → String → Option LogLine)
    (linesNewerThan : GoTime) (servers : List Server)
    (l1 l2 : List LogStreamItem) :
    processStream parseLogLine linesNewerThan servers (l1 ++ l2) =
      { emitted := (processStream parseLogLine linesNewerThan servers l1).emitted ++
          (processStream parseLogLine linesNewerThan servers l2).emitted,
        errorLogs := (processStream parseLogLine linesNewerThan servers l1).errorLogs ++
          (processStream parseLogLine linesNewerThan servers l2).errorLogs } := by
  induction l1 with
  | nil => simp [processStream]
  | cons item rest ih => simp [processStream, ih]

theorem handlersMatchStarted_push (st : SetupState) (k : String)
    (h : handlersMatchStarted st) (hk : k ∉ st.handlers) :
    handlersMatchStarted
      { st with handlers := st.handlers ++ [k],
                attempts := st.attempts ++ [k], started := st.started ++ [k] } := by
  obtain ⟨hnd, hiff⟩ := h
  have hks : k ∉ st.started := fun h' => hk ((hiff k).mpr h')
  refine ⟨by simp [List.nodup_append, hnd, hks], fun k' => ?_⟩
  simp only [List.mem_append, List.mem_singleton]
  rw [hiff k']

theorem setupLoop_cons_skip_empty (testRun : Bool) (setup : Server → Option String)
    (server : Server) (rest : List Server) (st : SetupState)
    (he : server.config.gcpPubsubSubscription = "") :
    setupLoop testRun setup (server :: rest) st = setupLoop testRun setup rest st := by
  rw [setupLoop, if_pos he]

theorem setupLoop_cons_skip_dup (testRun : Bool) (setup : Server → Option String)
    (server : Server) (rest : List Server) (st : SetupState)
    (he : server.config.gcpPubsubSubscription ≠ "")
    (hmem : server.config.gcpPubsubSubscription ∈ st.handlers) :
    setupLoop testRun setup (server :: rest) st = setupLoop testRun setup rest st := by
  rw [setupLoop, if_neg he, if_pos hmem]

theorem setupLoop_cons_fail_strict (setup : Server → Option String)
    (server : Server) (rest : List Server) (st : SetupState) (e : String)
    (he : server.config.gcpPubsubSubscription ≠ "")
    (hmem : server.config.gcpPubsubSubscription ∉ st.handlers)
    (hs : setup server = some e) :
    setupLoop true setup (server :: rest) st = .error e := by
  rw [setupLoop, if_neg he, if_neg hmem, hs]
  rfl

theorem setupLoop_cons_fail_normal (setup : Server → Option String)
    (server : Server) (rest : List Server) (st : SetupState) (e : String)
    (he : server.config.gcpPubsubSubscription ≠ "")
    (hmem : server.config.gcpPubsubSubscription ∉ st.handlers)
    (hs : setup server = some e) :
    setupLoop false setup (server :: rest) st =
      setupLoop false setup rest
        { st with attempts := st.attempts ++ [server.config.gcpPubsubSubscription],
                  warnings := st.warnings ++ [e] } := by
  rw [setupLoop, if_neg he, if_neg hmem, hs]
  rfl

theorem setupLoop_cons_success (testRun : Bool) (setup : Server → Option String)
    (server : Server) (rest : List Server) (st : SetupState)
    (he : server.config.gcpPubsubSubscription ≠ "")
    (hmem : server.config.gcpPubsubSubscription ∉ st.handlers)
    (hs : setup server = none) :
    setupLoop testRun setup (server :: rest) st =
      setupLoop testRun setup rest
        { st with handlers := st.handlers ++ [server.config.gcpPubsubSubscription],
                  attempts := st.attempts ++ [server.config.gcpPubsubSubscription],
                  started := st.started ++ [server.config.gcpPubsubSubscription] } := by
  rw [setupLoop, if_neg he, if_neg hmem, hs]

theorem setupLoop_ok_inv (testRun : Bool) (setup : Server → Option String) :
    ∀ (servers : List Server) (st st' : SetupState),
      setupLoop testRun setup servers st = .ok st' →
      handlersMatchStarted st → handlersMatchStarted st' := by
  intro servers
  induction servers with
  | nil =>
    intro st st' h hinv
    simp only [setupLoop, Except.ok.injEq] at h
    rwa [← h]
  | cons server rest ih =>
    intro st st' h hinv
    by_cases he : server.config.gcpPubsubSubscription = ""
    · rw [setupLoop_cons_skip_empty testRun setup server rest st he] at h
      exact ih st st' h hinv
    · by_cases hmem : server.config.gcpPubsubSubscription ∈ st.handlers
      · rw [setupLoop_cons_skip_dup testRun setup server rest st he hmem] at h
        exact ih st st' h hinv
      · cases hs : setup server with
        | some e =>
          cases testRun with
          | true =>
            rw [setupLoop_cons_fail_strict setup server rest st e he hmem hs] at h
            exact absurd h (by simp)
          | false =>
            rw [setupLoop_cons_fail_normal setup server rest st e he hmem hs] at h
            exact ih _ st' h ⟨hinv.1, hinv.2⟩
        | none =>
          rw [setupLoop_cons_success testRun setup server rest st he hmem hs] at h
          exact ih _ st' h (handlersMatchStarted_push st _ hinv hmem)

theorem setupLoop_skip (testRun : Bool) (setup : Server → Option String) :
    ∀ (servers : List Server) (st st' : SetupState) (k : String),
      setupLoop testRun setup servers st = .ok st' → k ∈ st.handlers →
      st'.attempts.count k = st.attempts.count k ∧
      st'.started.count k = st.started.count k ∧ k ∈ st'.handlers := by
  intro servers
  induction servers with
  | nil =>
    intro st st' k h hk
    simp only [setupLoop, Except.ok.injEq] at h
    rw [← h]
    exact ⟨rfl, rfl, hk⟩
  | cons server rest ih =>
    intro st st' k h hk
    by_cases he : server.config.gcpPubsubSubscription = ""
    · rw [setupLoop_cons_skip_empty testRun setup server rest st he] at h
      exact ih st st' k h hk
    · by_cases hmem : server.config.gcpPubsubSubscription ∈ st.handlers
      · rw [setupLoop_cons_skip_dup testRun setup server rest st he hmem] at h
        exact ih st st' k h hk
      · have hkk : server.config.gcpPubsubSubscription ≠ k := fun hcc => hmem (hcc ▸ hk)
        cases hs : setup server with
        | some e =>
          cases testRun with
          | true =>
            rw [setupLoop_cons_fail_strict setup server rest st e he hmem hs] at h
            exact absurd h (by simp)
          | false =>
            rw [setupLoop_cons_fail_normal setup server rest st e he hmem hs] at h
            have := ih _ st' k h hk
            simpa [List.count_append, List.count_singleton', hkk] using this
        | none =>
          rw [setupLoop_cons_success testRun setup server rest st he hmem hs] at h
          have hk2 : k ∈ st.handlers ++ [server.config.gcpPubsubSubscription] := by
            simp [hk]
          have := ih _ st' k h hk2
          simpa [List.count_append, List.count_singleton', hkk] using this

theorem setupLoop_handlers_subset_started (testRun : Bool) (setup : Server → Option String) :
    ∀ (servers : List Server) (st st' : SetupState),
      setupLoop testRun setup servers st = .ok st' →
      (∀ k, k ∈ st.handlers → k ∈ st.started) →
      ∀ k, k ∈ st'.handlers → k ∈ st'.started := by
  intro servers
  induction servers with
  | nil =>
    intro st st' h hsub
    simp only [setupLoop, Except.ok.injEq] at h
    rwa [← h]
  | cons server rest ih =>
    intro st st' h hsub
    by_cases he : server.config.gcpPubsubSubscription = ""
    · rw [setupLoop_cons_skip_empty testRun setup server rest st he] at h
      exact ih st st' h hsub
    · by_cases hmem : server.config.gcpPubsubSubscription ∈ st.handlers
      · rw [setupLoop_cons_skip_dup testRun setup server rest st he hmem] at h
        exact ih st st' h hsub
      · cases hs : setup server with
        | some e =>
          cases testRun with
          | true =>
            rw [setupLoop_cons_fail_strict setup server rest st e he hmem hs] at h
            exact absurd h (by simp)
          | false =>
            rw [setupLoop_cons_fail_normal setup server rest st e he hmem hs] at h
            exact ih _ st' h hsub
        | none =>
          rw [setupLoop_cons_success testRun setup server rest st he hmem hs] at h
          refine ih _ st' h ?_
          intro k hkm
          simp only [List.mem_append, List.mem_singleton] at hkm ⊢
          rcases hkm with hkm | hkm
          · exact Or.inl (hsub k hkm)
          · exact Or.inr hkm

theorem setupLoop_allSuccess (testRun : Bool) (setup : Server → Option String)
    (hsu : ∀ sv, setup sv = none) :
    ∀ (servers : List Server) (st : SetupState), handlersMatchStarted st →
      ∃ st', setupLoop testRun setup servers st = .ok st' ∧ handlersMatchStarted st' ∧
        ∀ k, (k ∈ st'.started ↔ k ∈ st.started ∨
          (k ≠ "" ∧ ∃ sv ∈ servers, sv.config.gcpPubsubSubscription = k)) := by
  intro servers
  induction servers with
  | nil =>
    intro st hinv
    exact ⟨st, rfl, hinv, fun k => by simp⟩
  | cons server rest ih =>
    intro st hinv
    by_cases he : server.config.gcpPubsubSubscription = ""
    · obtain ⟨st', hrun, hinv', hiff⟩ := ih st hinv
      refine ⟨st', ?_, hinv', fun k => ?_⟩
      · rw [setupLoop_cons_skip_empty testRun setup server rest st he]
        exact hrun
      rw [hiff k]
      constructor
      · rintro (h | ⟨hk, sv, hsv, hkey⟩)
        · exact Or.inl h
        · exact Or.inr ⟨hk, sv, List.mem_cons_of_mem server hsv, hkey⟩
      · rintro (h | ⟨hk, sv, hsv, hkey⟩)
        · exact Or.inl h
        · rcases List.mem_cons.mp hsv with hsv2 | hsv2
          · exact absurd ((hsv2 ▸ hkey).symm.trans he) hk
          · exact Or.inr ⟨hk, sv, hsv2, hkey⟩
    · by_cases hmem : server.config.gcpPubsubSubscription ∈ st.handlers
      · obtain ⟨st', hrun, hinv', hiff⟩ := ih st hinv
        refine ⟨st', ?_, hinv', fun k => ?_⟩
        · rw [setupLoop_cons_skip_dup testRun setup server rest st he hmem]
          exact hrun
        rw [hiff k]
        constructor
        · rintro (h | ⟨hk, sv, hsv, hkey⟩)
          · exact Or.inl h
          · exact Or.inr ⟨hk, sv, List.mem_cons_of_mem server hsv, hkey⟩
        · rintro (h | ⟨hk, sv, hsv, hkey⟩)
          · exact Or.inl h
          · rcases List.mem_cons.mp hsv with hsv2 | hsv2
            · refine Or.inl ((hinv.2 k).mp ?_)
              rw [← hkey, hsv2]
              exact hmem
            · exact Or.inr ⟨hk, sv, hsv2, hkey⟩
      · have hinv2 := handlersMatchStarted_push st _ hinv hmem
        obtain ⟨st', hrun, hinv', hiff⟩ := ih _ hinv2
        refine ⟨st', ?_, hinv', fun k => ?_⟩
        · rw [setupLoop_cons_success testRun setup server rest st he hmem (hsu server)]
          exact hrun
        rw [hiff k]
        simp only [List.mem_append, List.mem_singleton]
        constructor
        · rintro ((h | h) | ⟨hk, sv, hsv, hkey⟩)
          · exact Or.inl h
          · exact Or.inr ⟨fun hc => he (h.symm.trans hc), server,
              List.mem_cons_self server rest, h.symm⟩
          · exact Or.inr ⟨hk, sv, List.mem_cons_of_mem server hsv, hkey⟩
        · rintro (h | ⟨hk, sv, hsv, hkey⟩)
          · exact Or.inl (Or.inl h)
          · rcases List.mem_cons.mp hsv with hsv2 | hsv2
            · exact Or.inl (Or.inr (hsv2 ▸ hkey).symm)
            · exact Or.inr ⟨hk, sv, hsv2, hkey⟩

theorem setupLoop_false_ok (setup : Server → Option String) :
    ∀ (servers : List Server) (st : SetupState),
      ∃ st', setupLoop false setup servers st = .ok st' := by
  intro servers
  induction servers with
  | nil => exact fun st => ⟨st, rfl⟩
  | cons server rest ih =>
    intro st
    by_cases he : server.config.gcpPubsubSubscription = ""
    · obtain ⟨st', h⟩ := ih st
      exact ⟨st', by rw [setupLoop_cons_skip_empty false setup server rest st he]; exact h⟩
    · by_cases hmem : server.config.gcpPubsubSubscription ∈ st.handlers
      · obtain ⟨st', h⟩ := ih st
        exact ⟨st', by rw [setupLoop_cons_skip_dup false setup server rest st he hmem]; exact h⟩
      · cases hs : setup server with
        | some e =>
          obtain ⟨st', h⟩ := ih
            { st with attempts := st.attempts ++ [server.config.gcpPubsubSubscription],
                      warnings := st.warnings ++ [e] }
          exact ⟨st', by rw [setupLoop_cons_fail_normal setup server rest st e he hmem hs]; exact h⟩
        | none =>
          obtain ⟨st', h⟩ := ih
            { st with handlers := st.handlers ++ [server.config.gcpPubsubSubscription],
                      attempts := st.attempts ++ [server.config.gcpPubsubSubscription],
                      started := st.started ++ [server.config.gcpPubsubSubscription] }
          exact ⟨st', by rw [setupLoop_cons_success false setup server rest st he hmem hs]; exact h⟩

/-! ## Claim theorems: subscription identifier format check -/

/-- C7 counterexample: the identifier `"a/b/c/d"` is not of the form
`projects/PROJECT_NAME/subscriptions/SUBSCRIPTION_NAME`, yet it passes
the format check (the code only counts slash separators), so setup does
not fail before creating a provider client as the claim states. -/
theorem format_check_accepts_malformed_path :
    checkSubscriptionFormat "a/b/c/d" = some ("b", "d") ∧
    ¬ ∃ p q : String, "a/b/c/d" = "projects/" ++ p ++ "/subscriptions/" ++ q := by
  refine ⟨by decide, ?_⟩
  rintro ⟨p, q, h⟩
  have hl := congrArg (fun s => s.toList.length) h
  simp only [toList_append, List.length_append] at hl
  have h7 : ("a/b/c/d" : String).toList.length = 7 := by decide
  have h9 : ("projects/" : String).toList.length = 9 := by decide
  have h15 : ("/subscriptions/" : String).toList.length = 15 := by decide
  rw [h7, h9, h15] at hl
  omega

/-- C7 (amended): the format check fails exactly when the identifier
does not contain exactly three slash separators; any identifier with
exactly three slashes passes, with the second segment taken as the
project and the fourth as the subscription name — in particular every
well-formed `projects/P/subscriptions/S` identifier (slash-free `P`,
`S`) passes with `P` and `S` extracted. -/
theorem format_check_requires_three_slashes :
    (∀ s : String, countSlash s ≠ 3 → checkSubscriptionFormat s = none) ∧
    (∀ p q : String, countSlash p = 0 → countSlash q = 0 →
      checkSubscriptionFormat ("projects/" ++ p ++ "/subscriptions/" ++ q) =
        some (p, q)) := by
  constructor
  · intro s h
    simp [checkSubscriptionFormat, h]
  · intro p q hp hq
    have hp' : countSlashL p.toList = 0 := hp
    have hq' : countSlashL q.toList = 0 := hq
    have hpr : countSlashL ("projects" : String).toList = 0 := by decide
    have hsub : countSlashL ("subscriptions" : String).toList = 0 := by decide
    have hcount : countSlash ("projects/" ++ p ++ "/subscriptions/" ++ q) = 3 := by
      unfold countSlash
      rw [toList_wellFormedPath, countSlashL_append, countSlashL_slash_cons,
        countSlashL_append, countSlashL_slash_cons, countSlashL_append,
        countSlashL_slash_cons, hpr, hsub, hp', hq']
    have hsplit : splitSlashN 4 (("projects/" ++ p ++ "/subscriptions/" ++ q) : String).toList =
        [("projects" : String).toList, p.toList, ("subscriptions" : String).toList, q.toList] := by
      rw [toList_wellFormedPath]
      exact splitSlashN_four _ _ _ _ hpr hp' hsub
    have hne : ¬ (countSlash ("projects/" ++ p ++ "/subscriptions/" ++ q) ≠ 3) :=
      fun hcc => hcc hcount
    simp only [checkSubscriptionFormat]
    rw [if_neg hne, hsplit]
    rfl

/-- C7 witness: a concrete well-formed identifier passes the check with
its project and subscription name extracted. -/
theorem format_check_requires_three_slashes_witness :
    checkSubscriptionFormat ("projects/" ++ "myproj" ++ "/subscriptions/" ++ "mysub") =
      some ("myproj", "mysub") :=
  format_check_requires_three_slashes.2 "myproj" "mysub" (by decide) (by decide)

/-! ## Claim theorems: stream transformer -/

/-- C1: a record that parses and survives the freshness filter is routed
to every configured target whose (project, instance) pair equals the
record's: one emission per matching target carrying that target's
identifier and the parsed line, so k matching targets give exactly k
emissions and zero matching targets give none. -/
theorem routed_broadcast_per_matching_target
    (parseLogLine : String → String → Option LogLine) (linesNewerThan : GoTime)
    (servers : List Server) (item : LogStreamItem) (parsed : LogLine)
    (hparse : parseLogLine "" (item.content ++ "\n") = some parsed)
    (hfresh : (!item.occurredAt.isZero && item.occurredAt.before linesNewerThan) = false) :
    (processRecord parseLogLine linesNewerThan servers item).emitted =
      (servers.filter (matchesServer item)).map
        (fun s => { identifier := s.config.identifier,
                    logLine := { parsed with occurredAt := item.occurredAt } }) ∧
    (processRecord parseLogLine linesNewerThan servers item).emitted.length =
      (servers.filter (matchesServer item)).length := by
  have h1 : (processRecord parseLogLine linesNewerThan servers item).emitted =
      routeRecord item { parsed with occurredAt := item.occurredAt } servers := by
    simp [processRecord, hparse, hfresh]
  rw [h1, routeRecord_eq_filter_map]
  exact ⟨rfl, by simp⟩

/-- C1 witness: a concrete record matching two of three targets yields
exactly those two routed lines. -/
theorem routed_broadcast_per_matching_target_witness :
    (processRecord (fun _ t => some ⟨⟨99⟩, t⟩) ⟨100⟩
        [⟨⟨"a", "id1", "s", "p", "i"⟩⟩, ⟨⟨"b", "id2", "", "p", "i"⟩⟩, ⟨⟨"c", "id3", "", "q", "i"⟩⟩]
        ⟨"p", "i", ⟨150⟩, "line"⟩).emitted =
      (([⟨⟨"a", "id1", "s", "p", "i"⟩⟩, ⟨⟨"b", "id2", "", "p", "i"⟩⟩,
         ⟨⟨"c", "id3", "", "q", "i"⟩⟩] : List Server).filter
          (matchesServer ⟨"p", "i", ⟨150⟩, "line"⟩)).map
        (fun s => { identifier := s.config.identifier, logLine := ⟨⟨150⟩, "line\n"⟩ }) ∧
    (processRecord (fun _ t => some ⟨⟨99⟩, t⟩) ⟨100⟩
        [⟨⟨"a", "id1", "s", "p", "i"⟩⟩, ⟨⟨"b", "id2", "", "p", "i"⟩⟩, ⟨⟨"c", "id3", "", "q", "i"⟩⟩]
        ⟨"p", "i", ⟨150⟩, "line"⟩).emitted.length =
      (([⟨⟨"a", "id1", "s", "p", "i"⟩⟩, ⟨⟨"b", "id2", "", "p", "i"⟩⟩,
         ⟨⟨"c", "id3", "", "q", "i"⟩⟩] : List Server).filter
          (matchesServer ⟨"p", "i", ⟨150⟩, "line"⟩)).length :=
  routed_broadcast_per_matching_target (fun _ t => some ⟨⟨99⟩, t⟩) ⟨100⟩
    [⟨⟨"a", "id1", "s", "p", "i"⟩⟩, ⟨⟨"b", "id2", "", "p", "i"⟩⟩, ⟨⟨"c", "id3", "", "q", "i"⟩⟩]
    ⟨"p", "i", ⟨150⟩, "line"⟩ ⟨⟨99⟩, "line\n"⟩ rfl (by decide)

/-- C2: a record whose occurrence timestamp is non-zero and strictly
before the cutoff (start time minus one minute) is discarded: nothing is
emitted for it, and removing it from any input stream leaves the
transformer's output unchanged. -/
theorem stale_record_discarded
    (parseLogLine : String → String → Option LogLine) (now : GoTime)
    (servers : List Server) (item : LogStreamItem)
    (hz : item.occurredAt.isZero = false)
    (hb : item.occurredAt.before (transformerCutoff now) = true) :
    (processRecord parseLogLine (transformerCutoff now) servers item).emitted = [] ∧
    ∀ older newer : List LogStreamItem,
      (runLogTransformer parseLogLine now servers (older ++ item :: newer)).emitted =
        (runLogTransformer parseLogLine now servers (older ++ newer)).emitted := by
  have h1 : (processRecord parseLogLine (transformerCutoff now) servers item).emitted = [] := by
    cases hp : parseLogLine "" (item.content ++ "\n") with
    | none => simp [processRecord, hp]
    | some parsed => simp [processRecord, hp, hz, hb]
  refine ⟨h1, fun older newer => ?_⟩
  simp only [runLogTransformer, processStream_append, processStream, h1]
  simp

/-- C2 witness: a record one hour older than the cutoff is dropped. -/
theorem stale_record_discarded_witness :
    (processRecord (fun _ t => some ⟨⟨99⟩, t⟩)
        (transformerCutoff ⟨3600000000000⟩) [⟨⟨"a", "id1", "s", "p", "i"⟩⟩]
        ⟨"p", "i", ⟨1⟩, "line"⟩).emitted = [] ∧
    ∀ older newer : List LogStreamItem,
      (runLogTransformer (fun _ t => some ⟨⟨99⟩, t⟩) ⟨3600000000000⟩
          [⟨⟨"a", "id1", "s", "p", "i"⟩⟩] (older ++ ⟨"p", "i", ⟨1⟩, "line"⟩ :: newer)).emitted =
        (runLogTransformer (fun _ t => some ⟨⟨99⟩, t⟩) ⟨3600000000000⟩
          [⟨⟨"a", "id1", "s", "p", "i"⟩⟩] (older ++ newer)).emitted :=
  stale_record_discarded (fun _ t => some ⟨⟨99⟩, t⟩) ⟨3600000000000⟩
    [⟨⟨"a", "id1", "s", "p", "i"⟩⟩] ⟨"p", "i", ⟨1⟩, "line"⟩ (by decide) (by decide)

/-- C3: a record with the zero (unknown) occurrence timestamp is never
discarded by the freshness filter: whenever it parses, it always
reaches the routing step, whatever the cutoff. -/
theorem zero_timestamp_never_filtered
    (parseLogLine : String → String → Option LogLine) (linesNewerThan : GoTime)
    (servers : List Server) (item : LogStreamItem) (parsed : LogLine)
    (hz : item.occurredAt.isZero = true)
    (hparse : parseLogLine "" (item.content ++ "\n") = some parsed) :
    (!item.occurredAt.isZero && item.occurredAt.before linesNewerThan) = false ∧
    (processRecord parseLogLine linesNewerThan servers item).emitted =
      routeRecord item { parsed with occurredAt := item.occurredAt } servers := by
  have hcond : (!item.occurredAt.isZero && item.occurredAt.before linesNewerThan) = false := by
    simp [hz]
  exact ⟨hcond, by simp [processRecord, hparse, hcond]⟩

/-- C3 witness: a zero-timestamp record is routed even though the cutoff
is far in the future. -/
theorem zero_timestamp_never_filtered_witness :
    (!(⟨"p", "i", ⟨0⟩, "line"⟩ : LogStreamItem).occurredAt.isZero &&
        (⟨"p", "i", ⟨0⟩, "line"⟩ : LogStreamItem).occurredAt.before ⟨1000000⟩) = false ∧
    (processRecord (fun _ t => some ⟨⟨99⟩, t⟩) ⟨1000000⟩
        [⟨⟨"a", "id1", "s", "p", "i"⟩⟩] ⟨"p", "i", ⟨0⟩, "line"⟩).emitted =
      routeRecord ⟨"p", "i", ⟨0⟩, "line"⟩ ⟨⟨0⟩, "line\n"⟩ [⟨⟨"a", "id1", "s", "p", "i"⟩⟩] :=
  zero_timestamp_never_filtered (fun _ t => some ⟨⟨99⟩, t⟩) ⟨1000000⟩
    [⟨⟨"a", "id1", "s", "p", "i"⟩⟩] ⟨"p", "i", ⟨0⟩, "line"⟩ ⟨⟨99⟩, "line\n"⟩
    (by decide) rfl

/-- C9: a record the line parser rejects (with the trailing newline
restored and the empty first argument) is logged raw and dropped: nothing
is emitted for it, no error is propagated (the transformer has no error
outcome at all), and the rest of the stream is processed unchanged. -/
theorem unparseable_record_logged_and_dropped
    (parseLogLine : String → String → Option LogLine) (linesNewerThan : GoTime)
    (servers : List Server) (item : LogStreamItem) (rest : List LogStreamItem)
    (hparse : parseLogLine "" (item.content ++ "\n") = none) :
    processRecord parseLogLine linesNewerThan servers item =
      { emitted := [], errorLogs := [item.content] } ∧
    processStream parseLogLine linesNewerThan servers (item :: rest) =
      { emitted := (processStream parseLogLine linesNewerThan servers rest).emitted,
        errorLogs := item.content ::
          (processStream parseLogLine linesNewerThan servers rest).errorLogs } := by
  have h1 : processRecord parseLogLine linesNewerThan servers item =
      { emitted := [], errorLogs := [item.content] } := by
    simp [processRecord, hparse]
  exact ⟨h1, by simp [processStream, h1]⟩

/-- C9 witness: with a parser that rejects everything, a record is
logged and dropped while the rest of the stream is unaffected. -/
theorem unparseable_record_logged_and_dropped_witness :
    processRecord (fun _ _ => none) ⟨100⟩ [⟨⟨"a", "id1", "s", "p", "i"⟩⟩]
        ⟨"p", "i", ⟨150⟩, "bad"⟩ =
      { emitted := [], errorLogs := ["bad"] } ∧
    processStream (fun _ _ => none) ⟨100⟩ [⟨⟨"a", "id1", "s", "p", "i"⟩⟩]
        (⟨"p", "i", ⟨150⟩, "bad"⟩ :: [⟨"p", "i", ⟨151⟩, "next"⟩]) =
      { emitted := (processStream (fun _ _ => none) ⟨100⟩ [⟨⟨"a", "id1", "s", "p", "i"⟩⟩]
          [⟨"p", "i", ⟨151⟩, "next"⟩]).emitted,
        errorLogs := "bad" :: (processStream (fun _ _ => none) ⟨100⟩
          [⟨⟨"a", "id1", "s", "p", "i"⟩⟩] [⟨"p", "i", ⟨151⟩, "next"⟩]).errorLogs } :=
  unparseable_record_logged_and_dropped (fun _ _ => none) ⟨100⟩
    [⟨⟨"a", "id1", "s", "p", "i"⟩⟩] ⟨"p", "i", ⟨150⟩, "bad"⟩
    [⟨"p", "i", ⟨151⟩, "next"⟩] rfl

/-- C5: every routed line emitted for a record the Pub/Sub adapter
produced carries as occurrence timestamp exactly the result of parsing
the message's timestamp field (zero when the parse fails), and this
record timestamp overwrites whatever timestamp the line parser put on
the parsed line. -/
theorem emitted_timestamp_is_record_timestamp
    (timeParse : String → Option GoTime) (msg : GoogleLogMessage) (item : LogStreamItem)
    (hmsg : processPubSubMessage timeParse msg = some item)
    (parseLogLine : String → String → Option LogLine) (linesNewerThan : GoTime)
    (servers : List Server) (r : ParsedLogStreamItem)
    (hr : r ∈ (processRecord parseLogLine linesNewerThan servers item).emitted) :
    r.logLine.occurredAt = goTimeParse timeParse msg.timestamp ∧
    r.logLine.occurredAt = item.occurredAt := by
  have hts : item.occurredAt = goTimeParse timeParse msg.timestamp := by
    unfold processPubSubMessage at hmsg
    split at hmsg
    · exact absurd hmsg (by simp)
    · split at hmsg
      · exact absurd hmsg (by simp)
      · split at hmsg
        · exact absurd hmsg (by simp)
        · split at hmsg
          · exact absurd hmsg (by simp)
          · split at hmsg
            · exact absurd hmsg (by simp)
            · simp only [Option.some.injEq] at hmsg
              rw [← hmsg]
  have hocc : r.logLine.occurredAt = item.occurredAt := by
    cases hp : parseLogLine "" (item.content ++ "\n") with
    | none => simp [processRecord, hp] at hr
    | some parsed =>
      simp only [processRecord, hp] at hr
      split at hr
      · simp at hr
      · have := logLine_of_mem_routeRecord _ _ _ _ hr
        rw [this]
  exact ⟨hocc.trans hts, hocc⟩

/-- C5 witness: a concrete adapter message routed to one target carries
the parsed record timestamp, not the line parser's timestamp. -/
theorem emitted_timestamp_is_record_timestamp_witness :
    (⟨"id1", ⟨⟨5⟩, "hello\n"⟩⟩ : ParsedLogStreamItem).logLine.occurredAt =
      goTimeParse (fun _ => some ⟨5⟩) "t" ∧
    (⟨"id1", ⟨⟨5⟩, "hello\n"⟩⟩ : ParsedLogStreamItem).logLine.occurredAt =
      (⟨"p9", "c1", ⟨5⟩, "hello"⟩ : LogStreamItem).occurredAt :=
  emitted_timestamp_is_record_timestamp (fun _ => some ⟨5⟩)
    { insertId := "i", logName := "x/postgres.log", receiveTimestamp := "",
      resource := { resourceType := "cloudsql_database",
                    labels := [("resource_container", "projects/p9"), ("cluster_id", "c1")] },
      severity := "", textPayload := "hello", timestamp := "t" }
    ⟨"p9", "c1", ⟨5⟩, "hello"⟩ (by decide)
    (fun _ t => some ⟨⟨99⟩, t⟩) ⟨3⟩ [⟨⟨"a", "id1", "s", "p9", "c1"⟩⟩]
    ⟨"id1", ⟨⟨5⟩, "hello\n"⟩⟩ (by decide)

/-! ## Claim theorems: coordinator and adapter loop -/

/-- C4: per distinct non-empty subscription identifier the coordinator
starts at most one adapter (exactly one when every setup call succeeds),
and once an identifier is in the deduplication map, later targets with
the same identifier trigger neither a setup attempt nor an adapter
start. -/
theorem dedup_at_most_one_adapter_per_subscription
    (testRun : Bool) (setup : Server → Option String) (servers : List Server)
    (st' : SetupState) (h : setupLogSubscriber testRun setup servers = .ok st') :
    (∀ k, st'.started.count k ≤ 1) ∧
    (∀ (rest : List Server) (st₀ st₁ : SetupState) (k : String),
       k ∈ st₀.handlers → setupLoop testRun setup rest st₀ = .ok st₁ →
       st₁.attempts.count k = st₀.attempts.count k ∧
       st₁.started.count k = st₀.started.count k) ∧
    ((∀ sv, setup sv = none) → ∀ k, k ≠ "" →
      (∃ sv ∈ servers, sv.config.gcpPubsubSubscription = k) →
      st'.started.count k = 1) := by
  have hinv0 : handlersMatchStarted SetupState.empty :=
    ⟨List.nodup_nil, fun k => by simp [SetupState.empty]⟩
  have hinv' := setupLoop_ok_inv testRun setup servers SetupState.empty st' h hinv0
  refine ⟨fun k => List.nodup_iff_count_le_one.mp hinv'.1 k, ?_, ?_⟩
  · intro rest st₀ st₁ k hk hrun
    have := setupLoop_skip testRun setup rest st₀ st₁ k hrun hk
    exact ⟨this.1, this.2.1⟩
  · intro hsu k hk hex
    obtain ⟨st'', hrun, hinv'', hiff⟩ :=
      setupLoop_allSuccess testRun setup hsu servers SetupState.empty hinv0
    have heq : (Except.ok st'' : Except String SetupState) = .ok st' := by
      rw [← hrun]
      exact h
    simp only [Except.ok.injEq] at heq
    subst heq
    have hk' : k ∈ st''.started := (hiff k).mpr (Or.inr ⟨hk, hex⟩)
    exact List.count_eq_one_of_mem hinv''.1 hk'

/-- C4 witness: two targets sharing subscription "s", all setups
succeeding — one adapter started, count 1. -/
theorem dedup_at_most_one_adapter_per_subscription_witness :
    (∀ k, (SetupState.mk ["s"] ["s"] ["s"] []).started.count k ≤ 1) ∧
    (∀ (rest : List Server) (st₀ st₁ : SetupState) (k : String),
       k ∈ st₀.handlers → setupLoop false setupAlwaysSucceeds rest st₀ = .ok st₁ →
       st₁.attempts.count k = st₀.attempts.count k ∧
       st₁.started.count k = st₀.started.count k) ∧
    ((∀ sv, setupAlwaysSucceeds sv = none) → ∀ k, k ≠ "" →
      (∃ sv ∈ [Server.mk ⟨"a", "id1", "s", "p", "i"⟩, Server.mk ⟨"b", "id2", "s", "p", "i"⟩],
        sv.config.gcpPubsubSubscription = k) →
      (SetupState.mk ["s"] ["s"] ["s"] []).started.count k = 1) :=
  dedup_at_most_one_adapter_per_subscription false setupAlwaysSucceeds
    [Server.mk ⟨"a", "id1", "s", "p", "i"⟩, Server.mk ⟨"b", "id2", "s", "p", "i"⟩]
    ⟨["s"], ["s"], ["s"], []⟩ rfl

/-- C6: when setup for one target fails, strict validation mode (test
run) returns that error immediately; normal mode records the warning,
skips only that target, goes on with the remaining targets, and normal
mode never returns an error at all. -/
theorem setup_failure_strict_vs_normal
    (setup : Server → Option String) (server : Server) (rest : List Server)
    (st : SetupState) (e : String)
    (he : server.config.gcpPubsubSubscription ≠ "")
    (hmem : server.config.gcpPubsubSubscription ∉ st.handlers)
    (hs : setup server = some e) :
    setupLoop true setup (server :: rest) st = .error e ∧
    setupLoop false setup (server :: rest) st =
      setupLoop false setup rest
        { st with attempts := st.attempts ++ [server.config.gcpPubsubSubscription],
                  warnings := st.warnings ++ [e] } ∧
    ∀ (servers : List Server) (st₀ : SetupState),
      ∃ st₁, setupLoop false setup servers st₀ = .ok st₁ :=
  ⟨setupLoop_cons_fail_strict setup server rest st e he hmem hs,
   setupLoop_cons_fail_normal setup server rest st e he hmem hs,
   fun servers st₀ => setupLoop_false_ok setup servers st₀⟩

/-- C6 witness: a concrete failing target, strict mode aborts with the
error while normal mode continues. -/
theorem setup_failure_strict_vs_normal_witness :
    setupLoop true (setupFailsOn "a" "boom")
        (Server.mk ⟨"a", "id1", "s", "p", "i"⟩ :: [Server.mk ⟨"b", "id2", "t", "p", "i"⟩])
        SetupState.empty = .error "boom" ∧
    setupLoop false (setupFailsOn "a" "boom")
        (Server.mk ⟨"a", "id1", "s", "p", "i"⟩ :: [Server.mk ⟨"b", "id2", "t", "p", "i"⟩])
        SetupState.empty =
      setupLoop false (setupFailsOn "a" "boom") [Server.mk ⟨"b", "id2", "t", "p", "i"⟩]
        { SetupState.empty with attempts := SetupState.empty.attempts ++ ["s"],
                                warnings := SetupState.empty.warnings ++ ["boom"] } ∧
    ∀ (servers : List Server) (st₀ : SetupState),
      ∃ st₁, setupLoop false (setupFailsOn "a" "boom") servers st₀ = .ok st₁ :=
  setup_failure_strict_vs_normal (setupFailsOn "a" "boom")
    (Server.mk ⟨"a", "id1", "s", "p", "i"⟩) [Server.mk ⟨"b", "id2", "t", "p", "i"⟩]
    SetupState.empty "boom" (by decide) (by decide) (by decide)

/-- C10: an identifier is recorded in the deduplication map only after a
successful setup; hence in normal mode, after a failed setup, a later
target with the same identifier triggers a fresh setup attempt (two
attempts recorded) instead of being deduplicated. -/
theorem dedup_records_only_successful_setups (setup : Server → Option String) :
    (∀ (testRun : Bool) (servers : List Server) (st st' : SetupState),
       setupLoop testRun setup servers st = .ok st' →
       (∀ k, k ∈ st.handlers → k ∈ st.started) →
       ∀ k, k ∈ st'.handlers → k ∈ st'.started) ∧
    (∀ (sv1 sv2 : Server) (k e : String),
       sv1.config.gcpPubsubSubscription = k → sv2.config.gcpPubsubSubscription = k →
       k ≠ "" → setup sv1 = some e →
       ∃ st', setupLogSubscriber false setup [sv1, sv2] = .ok st' ∧
         st'.attempts = [k, k]) := by
  constructor
  · exact fun testRun servers st st' h hsub =>
      setupLoop_handlers_subset_started testRun setup servers st st' h hsub
  · intro sv1 sv2 k e hk1 hk2 hk he1
    have h1ne : sv1.config.gcpPubsubSubscription ≠ "" :=
      fun hc => hk (hk1.symm.trans hc)
    have h2ne : sv2.config.gcpPubsubSubscription ≠ "" :=
      fun hc => hk (hk2.symm.trans hc)
    have hmem1 : sv1.config.gcpPubsubSubscription ∉ SetupState.empty.handlers := by
      simp [SetupState.empty]
    cases hs2 : setup sv2 with
    | some e2 =>
      refine ⟨⟨[], [k, k], [], [e, e2]⟩, ?_, rfl⟩
      rw [setupLogSubscriber,
        setupLoop_cons_fail_normal setup sv1 [sv2] SetupState.empty e h1ne hmem1 he1,
        setupLoop_cons_fail_normal setup sv2 [] _ e2 h2ne (by simp [SetupState.empty]) hs2]
      simp [setupLoop, SetupState.empty, hk1, hk2]
    | none =>
      refine ⟨⟨[k], [k, k], [k], [e]⟩, ?_, rfl⟩
      rw [setupLogSubscriber,
        setupLoop_cons_fail_normal setup sv1 [sv2] SetupState.empty e h1ne hmem1 he1,
        setupLoop_cons_success false setup sv2 [] _ h2ne (by simp [SetupState.empty]) hs2]
      simp [setupLoop, SetupState.empty, hk1, hk2]

/-- C10 witness: two targets share subscription "s"; the first setup
fails, and the second triggers a fresh attempt — two attempts are
recorded. -/
theorem dedup_records_only_successful_setups_witness :
    ∃ st', setupLogSubscriber false (setupFailsOn "a" "boom")
        [Server.mk ⟨"a", "id1", "s", "p", "i"⟩, Server.mk ⟨"b", "id2", "s", "p", "i"⟩] =
        .ok st' ∧ st'.attempts = ["s", "s"] :=
  (dedup_records_only_successful_setups (setupFailsOn "a" "boom")).2
    (Server.mk ⟨"a", "id1", "s", "p", "i"⟩) (Server.mk ⟨"b", "id2", "s", "p", "i"⟩)
    "s" "boom" rfl rfl (by decide) (by decide)

/-- C8: the adapter's receive loop never exits on a non-cancellation
error — each such error yields an error log and a one-minute sleep and
the receive call is re-issued, indefinitely — and it exits exactly when
a receive call returns no error or the cancellation error, signalling
completion without logging a retry. -/
theorem receive_loop_retries_until_cancellation :
    (∀ ms : List String,
       receiveLoop (ms.map (fun m => some (GoError.other m))) =
         ((ms.map (fun m => [AdapterEvent.initLog, AdapterEvent.retryLog m,
             AdapterEvent.sleepMinutes 1])).flatten, false)) ∧
    (∀ (ms : List String) (final : Option GoError),
       final = none ∨ final = some GoError.canceled →
       receiveLoop (ms.map (fun m => some (GoError.other m)) ++ [final]) =
         ((ms.map (fun m => [AdapterEvent.initLog, AdapterEvent.retryLog m,
             AdapterEvent.sleepMinutes 1])).flatten ++
           [AdapterEvent.initLog, AdapterEvent.signalDone], true)) := by
  constructor
  · intro ms
    induction ms with
    | nil => rfl
    | cons m rest ih => simp [receiveLoop, ih]
  · intro ms final hfin
    induction ms with
    | nil =>
      rcases hfin with h | h <;> subst h <;> rfl
    | cons m rest ih => simp [receiveLoop, ih]

/-- C8 witness: one transient error then cancellation — one retry log
and sleep, then a clean exit with completion signalled. -/
theorem receive_loop_retries_until_cancellation_witness :
    receiveLoop ((["boom"].map (fun m => some (GoError.other m))) ++
        [some GoError.canceled]) =
      ((["boom"].map (fun m => [AdapterEvent.initLog, AdapterEvent.retryLog m,
          AdapterEvent.sleepMinutes 1])).flatten ++
        [AdapterEvent.initLog, AdapterEvent.signalDone], true) :=
  receive_loop_retries_until_cancellation.2 ["boom"] (some GoError.canceled) (Or.inr rfl)

end GoogleCloudSQL
